import Mathlib

/-!
Shallow embedding of the aggregation core of the savings-analysis dashboard
(`src/calculations.py`), together with proofs of the testable properties of
its specification.

Modelling conventions:
* A pandas `DataFrame` of dispute records is a `List Record`; the fixed column
  set produced by the loader/cleaner (`src/data_loader.py`) is `dfColumns`.
* Cleaned numeric columns (`discrepancy_value`, `gallons`, `expected_rate`,
  `billed_rate`) are rationals (the cleaner coerces missing values to 0, so
  they are never null).
* The one datetime column, `disputedAt`, is `Option Int`: `some d` is a
  timestamp on day `d` (days since 1970-01-01, the dataset's day resolution
  after cleaning), `none` is pandas `NaT`.
* Categorical string columns are `Option String` (`none` = pandas `NaN`).
* pandas `Series.sum()` of an empty selection is 0, `Series.mean()` of an
  empty selection is `NaN`; the mean is therefore modelled as `Option ℚ`
  with `none` for the empty case.
-/

/-- One dispute record: a row of the cleaned DataFrame. -/
structure Record where
  po_number : String
  customerName : Option String
  siteName : Option String
  item : Option String
  discrepancy_type : Option String
  discrepancy_status : Option String
  discrepancy_value : ℚ
  gallons : ℚ
  expected_rate : ℚ
  billed_rate : ℚ
  disputedAt : Option Int
deriving DecidableEq, Repr

/-- The columns of the cleaned DataFrame (`df.columns`). -/
def dfColumns : List String :=
  ["po_number", "customerName", "siteName", "item", "discrepancy_type",
   "discrepancy_status", "discrepancy_value", "gallons", "expected_rate",
   "billed_rate", "disputedAt"]

/-- Value of a categorical (string) column of a record.  Returns `none` both
for a null cell and for a column that is not one of the categorical columns;
no claim exercises grouping by a non-categorical column that is present. -/
def catValue (r : Record) (c : String) : Option String :=
  if c = "customerName" then r.customerName
  else if c = "siteName" then r.siteName
  else if c = "item" then r.item
  else if c = "discrepancy_type" then r.discrepancy_type
  else if c = "discrepancy_status" then r.discrepancy_status
  else none

/-- Value of a datetime column of a record.  `disputedAt` is the only
datetime column of the schema; for other column names the embedding yields
`none` (no claim exercises resampling on a non-datetime column that is
present). -/
def dateValue (r : Record) (c : String) : Option Int :=
  if c = "disputedAt" then r.disputedAt else none

/-- `numpy`/pandas rounding of a rational to the nearest integer, rounding
exact halves to the even neighbour (the embedding works over exact rationals
rather than IEEE doubles; no claim depends on tie behaviour). -/
def roundHalfEven (q : ℚ) : Int :=
  let f : Int := Int.floor q
  let frac : ℚ := q - f
  if frac < 1/2 then f
  else if 1/2 < frac then f + 1
  else if f % 2 = 0 then f else f + 1

/-- pandas `.round(2)`: round to 2 decimal places. -/
def round2 (q : ℚ) : ℚ := (roundHalfEven (q * 100) : ℚ) / 100

/-- pandas `Series.sum()` over a list of rationals. -/
def seriesSum (xs : List ℚ) : ℚ := xs.sum

/-- pandas `Series.mean()`: `NaN` (modelled `none`) on an empty selection. -/
def seriesMean (xs : List ℚ) : Option ℚ :=
  if xs.length = 0 then none else some (xs.sum / xs.length)

/-- Mean of a selection known to be nonempty (a groupby group); the value at
`[]` is irrelevant junk, groups are nonempty by construction. -/
def groupMean (xs : List ℚ) : ℚ := xs.sum / xs.length

/-- Result shape of `calculate_summary_metrics`. -/
structure SummaryMetrics where
  total_disputes : Nat
  total_discrepancy_value : ℚ
  total_gallons : ℚ
  avg_discrepancy_per_dispute : Option ℚ
  avg_gallons_per_dispute : Option ℚ
  total_positive_discrepancy : ℚ
  total_negative_discrepancy : ℚ
  disputes_with_positive_value : Nat
  disputes_with_negative_value : Nat
deriving DecidableEq, Repr

/-- `calculate_summary_metrics` (src/calculations.py:9-31). -/
def calculate_summary_metrics (df : List Record) : SummaryMetrics :=
  { total_disputes := df.length
    total_discrepancy_value := seriesSum (df.map Record.discrepancy_value)
    total_gallons := seriesSum (df.map Record.gallons)
    avg_discrepancy_per_dispute := seriesMean (df.map Record.discrepancy_value)
    avg_gallons_per_dispute := seriesMean (df.map Record.gallons)
    total_positive_discrepancy :=
      seriesSum ((df.filter (fun r => 0 < r.discrepancy_value)).map Record.discrepancy_value)
    total_negative_discrepancy :=
      abs (seriesSum ((df.filter (fun r => r.discrepancy_value < 0)).map Record.discrepancy_value))
    disputes_with_positive_value := (df.filter (fun r => 0 < r.discrepancy_value)).length
    disputes_with_negative_value := (df.filter (fun r => r.discrepancy_value < 0)).length }

/-- One row of the `calculate_by_category` result. -/
structure CategoryRow where
  category : String
  total_discrepancy : ℚ
  avg_discrepancy : ℚ
  count : Nat
  total_gallons : ℚ
  avg_gallons : ℚ
  avg_expected_rate : ℚ
  avg_billed_rate : ℚ
deriving DecidableEq, Repr

/-- Records of `df` paired with their (non-null) value of the grouping
column: the groupby key stream.  pandas `groupby` with its default
`dropna=True` silently drops rows whose key is null, which is exactly what
dropping the `none` cases of `catValue` does. -/
def categoryKeyed (df : List Record) (category_col : String) : List (String × Record) :=
  df.filterMap (fun r => (catValue r category_col).map (fun k => (k, r)))

/-- The aggregated row for one category group (the `agg` dictionary of the
source, all columns rounded to 2 decimals by the trailing `.round(2)`;
rounding a `count` is the identity so the count is kept exact). -/
def categoryRowFor (keyed : List (String × Record)) (k : String) : CategoryRow :=
  let grp := (keyed.filter (fun p => p.1 == k)).map Prod.snd
  { category := k
    total_discrepancy := round2 (seriesSum (grp.map Record.discrepancy_value))
    avg_discrepancy := round2 (groupMean (grp.map Record.discrepancy_value))
    count := grp.length
    total_gallons := round2 (seriesSum (grp.map Record.gallons))
    avg_gallons := round2 (groupMean (grp.map Record.gallons))
    avg_expected_rate := round2 (groupMean (grp.map Record.expected_rate))
    avg_billed_rate := round2 (groupMean (grp.map Record.billed_rate)) }

/-- `calculate_by_category` (src/calculations.py:34-60): guard on column
presence, group by the column (null keys dropped), aggregate each group,
and sort rows by `total_discrepancy` descending.  pandas emits the groups
in sorted key order before the final value sort; since the final sort by
`total_discrepancy` is the observable order, the embedding enumerates the
groups from a duplicate-free list of the keys, which the final sort
subsumes. -/
def calculate_by_category (df : List Record) (category_col : String) : List CategoryRow :=
  if category_col ∈ dfColumns then
    let keyed := categoryKeyed df category_col
    let keys := (keyed.map Prod.fst).dedup
    List.insertionSort (fun a b => b.total_discrepancy ≤ a.total_discrepancy)
      (keys.map (categoryRowFor keyed))
  else []

/-- Resampling frequency: pandas `'D'`, `'W'` and `'M'`. -/
inductive Freq where
  | D : Freq
  | W : Freq
  | M : Freq
deriving DecidableEq, Repr

/-- Month index (`12 * year + month - 1`) of the civil date whose day number
(days since 1970-01-01) is `z`, by the standard civil-from-days conversion.
All intermediate quantities after the era split are non-negative, so floor
division is used throughout. -/
def monthIndexOfDay (z : Int) : Int :=
  let zz := z + 719468
  let era := zz.fdiv 146097
  let doe := zz - era * 146097
  let yoe := (doe - doe.fdiv 1460 + doe.fdiv 36524 - doe.fdiv 146096).fdiv 365
  let y := yoe + era * 400
  let doy := doe - (365 * yoe + yoe.fdiv 4 - yoe.fdiv 100)
  let mp := (5 * doy + 2).fdiv 153
  let m := if mp < 10 then mp + 3 else mp - 9
  let yFinal := if m ≤ 2 then y + 1 else y
  12 * yFinal + (m - 1)

/-- Bucket index of day `d` under a resampling frequency.  `'D'` buckets are
the days themselves; `'W'` buckets are pandas' Monday-to-Sunday weeks,
labelled by their Sunday (day 3, 1970-01-04, was a Sunday); `'M'` buckets
are calendar months. -/
def bucketOf (freq : Freq) (d : Int) : Int :=
  match freq with
  | .D => d
  | .W => (d + 3).fdiv 7
  | .M => monthIndexOfDay d

/-- One row of the `calculate_by_date` result, keyed by bucket index. -/
structure DateRow where
  bucket : Int
  total_discrepancy : ℚ
  dispute_count : Nat
  total_gallons : ℚ
deriving DecidableEq, Repr

/-- Records of `df` paired with the bucket of their (non-null) timestamp in
the chosen datetime column.  Rows whose timestamp is `NaT` have no bucket
and are dropped, as `resample` drops `NaT` index entries. -/
def dateKeyed (df : List Record) (date_col : String) (freq : Freq) : List (Int × Record) :=
  df.filterMap (fun r => (dateValue r date_col).map (fun d => (bucketOf freq d, r)))

/-- The aggregated row for one resample bucket (the `agg` dictionary of the
source; the sum of an empty bucket is 0 and its count is 0). -/
def dateRowFor (keyed : List (Int × Record)) (b : Int) : DateRow :=
  let grp := (keyed.filter (fun p => p.1 == b)).map Prod.snd
  { bucket := b
    total_discrepancy := seriesSum (grp.map Record.discrepancy_value)
    dispute_count := grp.length
    total_gallons := seriesSum (grp.map Record.gallons) }

/-- `calculate_by_date` (src/calculations.py:63-91): guard on column
presence, convert the column to datetime, index by it and `resample` at the
given frequency.  `resample` emits one row for every bucket from the bucket
of the earliest timestamp to the bucket of the latest, consecutively and in
ascending order, including buckets holding no records. -/
def calculate_by_date (df : List Record) (date_col : String) (freq : Freq) : List DateRow :=
  if date_col ∈ dfColumns then
    match ((dateKeyed df date_col freq).map Prod.fst).min?,
          ((dateKeyed df date_col freq).map Prod.fst).max? with
    | some bmin, some bmax =>
        (List.range (bmax - bmin + 1).toNat).map
          (fun i : Nat => dateRowFor (dateKeyed df date_col freq) (bmin + (i : Int)))
    | _, _ => []
  else []

/-- The columns `calculate_top_disputes` projects its result onto
(src/calculations.py:111-114). -/
structure TopRecord where
  po_number : String
  customerName : Option String
  siteName : Option String
  item : Option String
  discrepancy_value : ℚ
  gallons : ℚ
  disputedAt : Option Int
  discrepancy_type : Option String
deriving DecidableEq, Repr

/-- The column projection applied by `calculate_top_disputes`. -/
def topColumns (r : Record) : TopRecord :=
  { po_number := r.po_number
    customerName := r.customerName
    siteName := r.siteName
    item := r.item
    discrepancy_value := r.discrepancy_value
    gallons := r.gallons
    disputedAt := r.disputedAt
    discrepancy_type := r.discrepancy_type }

/-- Numeric sort key of a record for a given column name.  `nlargest` is
defined on the numeric columns; the final fallback arm also stands in for
the string columns, on which pandas `nlargest` is not defined and which no
claim exercises. -/
def sortKeyFn (c : String) (r : Record) : ℚ :=
  if c = "gallons" then r.gallons
  else if c = "expected_rate" then r.expected_rate
  else if c = "billed_rate" then r.billed_rate
  else r.discrepancy_value

/-- The ordering `nlargest` sorts by, on index-record pairs: strictly larger
keys first, ties by original position (`keep='first'`, pandas' stable
descending order). -/
def nlargestLE (key : Record → ℚ) (p q : Nat × Record) : Prop :=
  key q.2 < key p.2 ∨ (key p.2 = key q.2 ∧ p.1 ≤ q.1)

instance (key : Record → ℚ) : DecidableRel (nlargestLE key) := fun p q =>
  decidable_of_iff (key q.2 < key p.2 ∨ (key p.2 = key q.2 ∧ p.1 ≤ q.1)) Iff.rfl

/-- `df` stably sorted descending by the key, still carrying original
positions.  pandas `nlargest(n, c)` with the default `keep='first'` returns
the first `n` rows of exactly this order. -/
def nlargestSorted (df : List Record) (key : Record → ℚ) : List (Nat × Record) :=
  List.insertionSort (nlargestLE key) df.enum

/-- pandas `df.nlargest(n, c)` with `keep='first'`: the `n` rows with the
largest keys, sorted descending, ties in original order.  For `n ≤ 0`
pandas returns an empty frame (it does not raise), which `Int.toNat` models. -/
def nlargestRecords (df : List Record) (n : Int) (key : Record → ℚ) : List Record :=
  ((nlargestSorted df key).take n.toNat).map Prod.snd

/-- `calculate_top_disputes` (src/calculations.py:94-115): fall back to
`discrepancy_value` when the requested sort column is absent, take the top
`n` rows, and project onto the fixed output columns. -/
def calculate_top_disputes (df : List Record) (n : Int) (sort_col : String) : List TopRecord :=
  let sb := if sort_col ∈ dfColumns then sort_col else "discrepancy_value"
  (nlargestRecords df n (sortKeyFn sb)).map topColumns

instance (key : Record → ℚ) : IsTotal (Nat × Record) (nlargestLE key) where
  total p q := by
    rcases lt_trichotomy (key p.2) (key q.2) with h | h | h
    · exact Or.inr (Or.inl h)
    · rcases Nat.le_total p.1 q.1 with hi | hi
      · exact Or.inl (Or.inr ⟨h, hi⟩)
      · exact Or.inr (Or.inr ⟨h.symm, hi⟩)
    · exact Or.inl (Or.inl h)

instance (key : Record → ℚ) : IsTrans (Nat × Record) (nlargestLE key) where
  trans p q s hpq hqs := by
    rcases hpq with h1 | ⟨h1, hi1⟩
    · rcases hqs with h2 | ⟨h2, _⟩
      · exact Or.inl (h2.trans h1)
      · exact Or.inl (h2 ▸ h1)
    · rcases hqs with h2 | ⟨h2, hi2⟩
      · exact Or.inl (h1 ▸ h2)
      · exact Or.inr ⟨h1.trans h2, hi1.trans hi2⟩

/-- A neutral record used to build the concrete test records below. -/
def sampleBase : Record :=
  { po_number := "PO-0", customerName := none, siteName := none, item := none,
    discrepancy_type := none, discrepancy_status := none, discrepancy_value := 0,
    gallons := 0, expected_rate := 0, billed_rate := 0, disputedAt := none }

/-- A record whose group total, `1/3`, is not representable at 2 decimals. -/
def sampleThird : Record :=
  { sampleBase with customerName := some "X", discrepancy_value := 1/3 }

/-- Records with exact-cent values in two categories. -/
def sampleCentA1 : Record :=
  { sampleBase with customerName := some "A", discrepancy_value := 1050/100 }

def sampleCentA2 : Record :=
  { sampleBase with customerName := some "A", discrepancy_value := -25/100 }

def sampleCentB : Record :=
  { sampleBase with customerName := some "B", discrepancy_value := 200/100 }

/-- Records dated on 2024-01-01 and 2024-01-03 (days 19723 and 19725 since
1970-01-01), plus an undated one, for the calendar-completeness scenario. -/
def sampleDay0 : Record :=
  { sampleBase with disputedAt := some 19723, discrepancy_value := 5 }

def sampleDay2 : Record :=
  { sampleBase with disputedAt := some 19725, discrepancy_value := 7 }

/-- Two records that differ only in `expected_rate`. -/
def sampleRateA : Record := { sampleBase with discrepancy_value := 9, expected_rate := 3 }

def sampleRateB : Record := { sampleBase with discrepancy_value := 9, expected_rate := 4 }

/-- Records with a tie on `discrepancy_value`, to exercise stable selection. -/
def sampleTie1 : Record := { sampleBase with po_number := "PO-1", discrepancy_value := 5 }

def sampleTie2 : Record := { sampleBase with po_number := "PO-2", discrepancy_value := 5 }

def sampleTie3 : Record := { sampleBase with po_number := "PO-3", discrepancy_value := 3 }

/-! ### Partitioning the record set by the sign of `discrepancy_value` -/

lemma filter_sign_sum (df : List Record) :
    seriesSum ((df.filter (fun r => 0 < r.discrepancy_value)).map Record.discrepancy_value)
      + seriesSum ((df.filter (fun r => r.discrepancy_value < 0)).map Record.discrepancy_value)
      = seriesSum (df.map Record.discrepancy_value) := by
  induction df with
  | nil => simp [seriesSum]
  | cons r t ih =>
    simp only [seriesSum, List.filter_cons, List.map_cons, List.sum_cons] at ih ⊢
    rcases lt_trichotomy r.discrepancy_value 0 with h | h | h
    · rw [if_neg (by simp [not_lt.mpr h.le]), if_pos (by simp [h])]
      simp only [List.map_cons, List.sum_cons]
      linarith
    · rw [if_neg (by simp [h, lt_irrefl]), if_neg (by simp [h, lt_irrefl])]
      rw [h]
      linarith
    · rw [if_pos (by simp [h]), if_neg (by simp [not_lt.mpr h.le])]
      simp only [List.map_cons, List.sum_cons]
      linarith

lemma filter_sign_length (df : List Record) :
    (df.filter (fun r => 0 < r.discrepancy_value)).length
      + (df.filter (fun r => r.discrepancy_value < 0)).length
      + (df.filter (fun r => r.discrepancy_value = 0)).length
      = df.length := by
  induction df with
  | nil => simp
  | cons r t ih =>
    simp only [List.filter_cons, List.length_cons]
    rcases lt_trichotomy r.discrepancy_value 0 with h | h | h
    · rw [if_neg (by simp [not_lt.mpr h.le]), if_pos (by simp [h]),
        if_neg (by simp [ne_of_lt h])]
      simp only [List.length_cons]
      omega
    · rw [if_neg (by simp [h, lt_irrefl]), if_neg (by simp [h, lt_irrefl]),
        if_pos (by simp [h])]
      simp only [List.length_cons]
      omega
    · rw [if_pos (by simp [h]), if_neg (by simp [not_lt.mpr h.le]),
        if_neg (by simp [(ne_of_lt h).symm])]
      simp only [List.length_cons]
      omega

lemma sum_filter_neg_nonpos (df : List Record) :
    seriesSum ((df.filter (fun r => r.discrepancy_value < 0)).map Record.discrepancy_value)
      ≤ 0 := by
  induction df with
  | nil => simp [seriesSum]
  | cons r t ih =>
    simp only [seriesSum, List.filter_cons] at ih ⊢
    by_cases h : r.discrepancy_value < 0
    · rw [if_pos (by simp [h])]
      simp only [List.map_cons, List.sum_cons]
      linarith
    · rw [if_neg (by simp [h])]
      exact ih

/-- C1: the summary metrics partition the signed total by sign --
`total_positive_discrepancy` minus `total_negative_discrepancy` equals
`total_discrepancy_value`, and records with value exactly 0 are counted in
neither `disputes_with_positive_value` nor `disputes_with_negative_value`
(the two counts plus the zero-valued records make up `total_disputes`). -/
theorem summary_sign_partition (df : List Record) :
    (calculate_summary_metrics df).total_positive_discrepancy
        - (calculate_summary_metrics df).total_negative_discrepancy
      = (calculate_summary_metrics df).total_discrepancy_value
    ∧ (calculate_summary_metrics df).disputes_with_positive_value
        + (calculate_summary_metrics df).disputes_with_negative_value
        + (df.filter (fun r => r.discrepancy_value = 0)).length
      = (calculate_summary_metrics df).total_disputes := by
  constructor
  · have h1 := filter_sign_sum df
    have h2 := sum_filter_neg_nonpos df
    simp only [calculate_summary_metrics]
    rw [abs_of_nonpos h2]
    linarith
  · simpa [calculate_summary_metrics] using filter_sign_length df

/-! ### Empty record set and missing columns -/

/-- C2: on the empty record set every aggregator returns a well-defined
empty or zero result: the summary metrics are zero counts and zero sums with
the means marked undefined (`none`, pandas `NaN`), and `byCategory` /
`byTime` return empty tables for every field name and granularity. -/
theorem aggregators_empty_defined :
    calculate_summary_metrics []
      = { total_disputes := 0, total_discrepancy_value := 0, total_gallons := 0,
          avg_discrepancy_per_dispute := none, avg_gallons_per_dispute := none,
          total_positive_discrepancy := 0, total_negative_discrepancy := 0,
          disputes_with_positive_value := 0, disputes_with_negative_value := 0 }
    ∧ (∀ c : String, calculate_by_category [] c = [])
    ∧ (∀ (c : String) (freq : Freq), calculate_by_date [] c freq = []) := by
  refine ⟨by decide, fun c => ?_, fun c freq => ?_⟩
  · unfold calculate_by_category
    split <;> rfl
  · unfold calculate_by_date
    split <;> rfl

/-- C9: for a field name absent from the record set, `byCategory` and
`byTime` return empty results (the functions are total, so no exception is
modelled or needed). -/
theorem missing_field_empty (df : List Record) (c : String) (h : c ∉ dfColumns) :
    calculate_by_category df c = []
    ∧ ∀ freq : Freq, calculate_by_date df c freq = [] := by
  constructor
  · unfold calculate_by_category
    rw [if_neg h]
  · intro freq
    unfold calculate_by_date
    rw [if_neg h]

/-- Witness for C9 at the concrete absent field name `"nonexistent"`. -/
theorem missing_field_empty_witness :
    "nonexistent" ∉ dfColumns
    ∧ (calculate_by_category [] "nonexistent" = []
        ∧ ∀ freq : Freq, calculate_by_date [] "nonexistent" freq = []) :=
  ⟨by decide, missing_field_empty [] "nonexistent" (by decide)⟩

lemma categoryKeyed_filter_isSome (df : List Record) (c : String) :
    categoryKeyed (df.filter (fun r => (catValue r c).isSome)) c = categoryKeyed df c := by
  induction df with
  | nil => rfl
  | cons r t ih =>
    simp only [categoryKeyed, List.filter_cons, List.filterMap_cons] at ih ⊢
    cases h : catValue r c with
    | none => simp [h, ih]
    | some k => simp [h, ih]

/-- C10: records whose value of the grouping column is null are silently
excluded by `byCategory`: the result is the same as on the record set with
those records removed, and every returned row's category is a non-null
value taken by some record. -/
theorem byCategory_null_excluded (df : List Record) (c : String) :
    calculate_by_category df c
      = calculate_by_category (df.filter (fun r => (catValue r c).isSome)) c
    ∧ ∀ row ∈ calculate_by_category df c, ∃ r ∈ df, catValue r c = some row.category := by
  constructor
  · unfold calculate_by_category
    rw [categoryKeyed_filter_isSome]
  · intro row hrow
    unfold calculate_by_category at hrow
    by_cases hc : c ∈ dfColumns
    · rw [if_pos hc] at hrow
      rw [List.mem_insertionSort] at hrow
      obtain ⟨k, hk, hrk⟩ := List.mem_map.mp hrow
      have hk' : k ∈ (categoryKeyed df c).map Prod.fst := List.mem_dedup.mp hk
      obtain ⟨p, hp, hpk⟩ := List.mem_map.mp hk'
      obtain ⟨r, hr, hrp⟩ := List.mem_filterMap.mp hp
      cases hcv : catValue r c with
      | none => rw [hcv] at hrp; simp at hrp
      | some k' =>
        rw [hcv] at hrp
        simp only [Option.map_some'] at hrp
        have hpe : (k', r) = p := Option.some.inj hrp
        refine ⟨r, hr, ?_⟩
        have hcat : row.category = k := by rw [← hrk]; rfl
        rw [hcv, hcat, ← hpk, ← hpe]
    · rw [if_neg hc] at hrow
      simp at hrow

/-! ### Summing group aggregates reconstructs the total -/

lemma sum_map_filter_add {α : Type} (p : α → Bool) (v : α → ℚ) (xs : List α) :
    ((xs.filter p).map v).sum + ((xs.filter (fun x => !(p x))).map v).sum
      = (xs.map v).sum := by
  induction xs with
  | nil => simp
  | cons x t ih =>
    by_cases h : p x
    · simp only [List.filter_cons, h, Bool.not_true, if_pos, List.map_cons, List.sum_cons,
        if_neg, Bool.false_eq_true, not_false_iff]
      linarith
    · have h' : p x = false := by simpa using h
      simp only [List.filter_cons, h', Bool.not_false, if_pos, List.map_cons, List.sum_cons,
        if_neg, Bool.false_eq_true, not_false_iff]
      linarith

/-- Summing, over a duplicate-free list of keys covering every element, the
sums of the groups selected by each key reconstructs the total sum. -/
lemma sum_over_groups {α κ : Type} [BEq κ] [LawfulBEq κ] (g : α → κ) (v : α → ℚ) :
    ∀ (ks : List κ) (xs : List α), ks.Nodup → (∀ x ∈ xs, g x ∈ ks) →
      (ks.map (fun k => ((xs.filter (fun x => g x == k)).map v).sum)).sum
        = (xs.map v).sum := by
  intro ks
  induction ks with
  | nil =>
    intro xs _ hcov
    have : xs = [] := by
      cases xs with
      | nil => rfl
      | cons x t => exact absurd (hcov x (List.mem_cons_self x t)) (List.not_mem_nil _)
    simp [this]
  | cons k ks ih =>
    intro xs hnd hcov
    have hndt : ks.Nodup := (List.nodup_cons.mp hnd).2
    have hkk : k ∉ ks := (List.nodup_cons.mp hnd).1
    simp only [List.map_cons, List.sum_cons]
    have hrest : ∀ k' ∈ ks,
        ((xs.filter (fun x => g x == k')).map v).sum
          = (((xs.filter (fun x => !(g x == k))).filter (fun x => g x == k')).map v).sum := by
      intro k' hk'
      have hne : k' ≠ k := fun h => hkk (h ▸ hk')
      rw [List.filter_filter]
      have hfe : xs.filter (fun x => g x == k')
          = xs.filter (fun a => g a == k' && !(g a == k)) := by
        apply List.filter_congr
        intro x _
        cases hx : (g x == k') with
        | false => simp [hx]
        | true =>
          have hgx : g x = k' := by simpa using hx
          have hnk : (g x == k) = false := by simp [hgx, hne]
          simp [hx, hnk]
      rw [hfe]
    have hmapcongr :
        (ks.map (fun k' => ((xs.filter (fun x => g x == k')).map v).sum))
          = (ks.map (fun k' =>
              (((xs.filter (fun x => !(g x == k))).filter (fun x => g x == k')).map v).sum)) :=
      List.map_congr_left hrest
    rw [hmapcongr]
    have hcov' : ∀ x ∈ xs.filter (fun x => !(g x == k)), g x ∈ ks := by
      intro x hx
      obtain ⟨hxs, hnk⟩ := List.mem_filter.mp hx
      have hgx : g x ≠ k := by simpa using hnk
      rcases List.mem_cons.mp (hcov x hxs) with h | h
      · exact absurd h hgx
      · exact h
    rw [ih (xs.filter (fun x => !(g x == k))) hndt hcov']
    exact sum_map_filter_add (fun x => g x == k) v xs

/-! ### Time aggregator: null exclusion and calendar completeness -/

lemma int_min?_bound {xs : List Int} {a : Int} (h : xs.min? = some a) :
    ∀ b ∈ xs, a ≤ b :=
  fun b hb => (List.le_min?_iff (fun _ _ _ => le_min_iff) h).mp le_rfl b hb

lemma int_max?_bound {xs : List Int} {a : Int} (h : xs.max? = some a) :
    ∀ b ∈ xs, b ≤ a :=
  fun b hb => (List.max?_le_iff (fun _ _ _ => max_le_iff) h).mp le_rfl b hb

lemma dateValue_disputedAt (r : Record) : dateValue r "disputedAt" = r.disputedAt := by
  simp [dateValue]

lemma dateKeyed_map_snd (df : List Record) (freq : Freq) (f : Record → ℚ) :
    (dateKeyed df "disputedAt" freq).map (fun p => f p.2)
      = (df.filter (fun r => r.disputedAt.isSome)).map f := by
  induction df with
  | nil => rfl
  | cons r t ih =>
    simp only [dateKeyed, List.filterMap_cons, List.filter_cons, dateValue_disputedAt] at ih ⊢
    cases hd : r.disputedAt with
    | none => simpa [hd] using ih
    | some d => simpa [hd] using ih

lemma dateKeyed_filter_isSome (df : List Record) (freq : Freq) :
    dateKeyed (df.filter (fun r => r.disputedAt.isSome)) "disputedAt" freq
      = dateKeyed df "disputedAt" freq := by
  induction df with
  | nil => rfl
  | cons r t ih =>
    simp only [dateKeyed, List.filter_cons, List.filterMap_cons, dateValue_disputedAt] at ih ⊢
    cases hd : r.disputedAt with
    | none => simpa [hd] using ih
    | some d => simpa [hd] using ih

lemma dateKeyed_filter_count (df : List Record) (freq : Freq) (b : Int) :
    ((dateKeyed df "disputedAt" freq).filter (fun p => p.1 == b)).length
      = (df.filter (fun r => r.disputedAt.map (bucketOf freq) == some b)).length := by
  induction df with
  | nil => rfl
  | cons r t ih =>
    simp only [dateKeyed, List.filterMap_cons, List.filter_cons, dateValue_disputedAt] at ih ⊢
    cases hd : r.disputedAt with
    | none => simpa [hd] using ih
    | some d =>
      simp only [hd, Option.map_some', List.filter_cons]
      cases hb : ((bucketOf freq d == b) : Bool) with
      | false =>
        have : ((some (bucketOf freq d) == some b) : Bool) = false := hb
        simpa [hb, this] using ih
      | true =>
        have : ((some (bucketOf freq d) == some b) : Bool) = true := hb
        simpa [hb, this] using ih

/-- C5: records with a null `disputedAt` are excluded from `byTime` --
the result is unchanged by dropping them -- and the bucket sums, summed
across all buckets, equal the sum of `discrepancy_value` over exactly the
records with a non-null timestamp. -/
theorem byTime_null_excluded (df : List Record) (freq : Freq) :
    calculate_by_date df "disputedAt" freq
      = calculate_by_date (df.filter (fun r => r.disputedAt.isSome)) "disputedAt" freq
    ∧ ((calculate_by_date df "disputedAt" freq).map DateRow.total_discrepancy).sum
      = ((df.filter (fun r => r.disputedAt.isSome)).map Record.discrepancy_value).sum := by
  constructor
  · unfold calculate_by_date
    rw [dateKeyed_filter_isSome]
  · unfold calculate_by_date
    rw [if_pos (by decide : "disputedAt" ∈ dfColumns)]
    rw [← dateKeyed_map_snd df freq Record.discrepancy_value]
    cases hmin : ((dateKeyed df "disputedAt" freq).map Prod.fst).min? with
    | none =>
      have hk : dateKeyed df "disputedAt" freq = [] := by
        have h1 := List.min?_eq_none_iff.mp hmin
        exact List.map_eq_nil_iff.mp h1
      rw [hk]
      simp
    | some bmin =>
      cases hmax : ((dateKeyed df "disputedAt" freq).map Prod.fst).max? with
      | none =>
        have h1 := List.max?_eq_none_iff.mp hmax
        rw [h1] at hmin
        simp at hmin
      | some bmax =>
        rw [List.map_map]
        have hrow : (DateRow.total_discrepancy ∘
              fun i : Nat => dateRowFor (dateKeyed df "disputedAt" freq) (bmin + (i : Int)))
            = fun i : Nat =>
              (((dateKeyed df "disputedAt" freq).filter
                  (fun p => p.1 == bmin + (i : Int))).map
                (fun p => p.2.discrepancy_value)).sum := by
          funext i
          simp only [Function.comp_apply, dateRowFor, seriesSum, List.map_map]
          rfl
        rw [hrow]
        have hcomp :
            (List.range (bmax - bmin + 1).toNat).map (fun i : Nat =>
              (((dateKeyed df "disputedAt" freq).filter
                  (fun p => p.1 == bmin + (i : Int))).map
                (fun p => p.2.discrepancy_value)).sum)
            = ((List.range (bmax - bmin + 1).toNat).map
                (fun i : Nat => bmin + (i : Int))).map (fun b : Int =>
              (((dateKeyed df "disputedAt" freq).filter (fun p => p.1 == b)).map
                (fun p => p.2.discrepancy_value)).sum) := by
          rw [List.map_map]
          rfl
        rw [hcomp]
        apply sum_over_groups (fun p : Int × Record => p.1)
          (fun p : Int × Record => p.2.discrepancy_value)
        · exact List.Nodup.map
            (fun a b hab => by omega)
            (List.nodup_range _)
        · intro p hp
          have h1 : bmin ≤ p.1 :=
            int_min?_bound hmin p.1 (List.mem_map_of_mem Prod.fst hp)
          have h2 : p.1 ≤ bmax :=
            int_max?_bound hmax p.1 (List.mem_map_of_mem Prod.fst hp)
          refine List.mem_map.mpr ⟨(p.1 - bmin).toNat, List.mem_range.mpr (by omega), by omega⟩

/-- C4: with at least one non-null timestamp, `byTime` is calendar-complete:
the table is nonempty, its bucket column is a consecutive ascending run of
bucket indices, the bucket of every dated record appears among the rows, and
each row's `dispute_count` counts exactly the records falling in its bucket
-- so buckets inside the observed range holding no records appear with
count 0 (records on 2024-01-01 and 2024-01-03 at day granularity give 3
rows, not 2). -/
theorem byTime_calendar_complete (df : List Record) (freq : Freq)
    (h : ∃ r ∈ df, r.disputedAt.isSome) :
    calculate_by_date df "disputedAt" freq ≠ []
    ∧ (∃ b0 : Int, (calculate_by_date df "disputedAt" freq).map DateRow.bucket
        = (List.range (calculate_by_date df "disputedAt" freq).length).map
            (fun i : Nat => b0 + (i : Int)))
    ∧ (∀ r ∈ df, ∀ d : Int, r.disputedAt = some d →
        bucketOf freq d ∈ (calculate_by_date df "disputedAt" freq).map DateRow.bucket)
    ∧ (∀ row ∈ calculate_by_date df "disputedAt" freq,
        row.dispute_count = (df.filter
          (fun r => r.disputedAt.map (bucketOf freq) == some row.bucket)).length) := by
  obtain ⟨r0, hr0, hs0⟩ := h
  obtain ⟨d0, hd0⟩ := Option.isSome_iff_exists.mp hs0
  have hmem : (bucketOf freq d0, r0) ∈ dateKeyed df "disputedAt" freq :=
    List.mem_filterMap.mpr ⟨r0, hr0, by rw [dateValue_disputedAt, hd0]; rfl⟩
  have hmemf : bucketOf freq d0 ∈ (dateKeyed df "disputedAt" freq).map Prod.fst :=
    List.mem_map_of_mem Prod.fst hmem
  have hmins := List.isSome_min?_of_mem hmemf
  have hmaxs := List.isSome_max?_of_mem hmemf
  obtain ⟨bmin, hmin⟩ := Option.isSome_iff_exists.mp hmins
  obtain ⟨bmax, hmax⟩ := Option.isSome_iff_exists.mp hmaxs
  have hle : bmin ≤ bmax :=
    le_trans (int_min?_bound hmin _ hmemf) (int_max?_bound hmax _ hmemf)
  have hdf : calculate_by_date df "disputedAt" freq
      = (List.range (bmax - bmin + 1).toNat).map
          (fun i : Nat => dateRowFor (dateKeyed df "disputedAt" freq) (bmin + (i : Int))) := by
    unfold calculate_by_date
    rw [if_pos (by decide : "disputedAt" ∈ dfColumns), hmin, hmax]
  refine ⟨?_, ?_, ?_, ?_⟩
  · rw [hdf]
    apply List.ne_nil_of_length_pos
    rw [List.length_map, List.length_range]
    omega
  · refine ⟨bmin, ?_⟩
    rw [hdf, List.map_map, List.length_map, List.length_range]
    rfl
  · intro r hr d hd
    have hmem' : (bucketOf freq d, r) ∈ dateKeyed df "disputedAt" freq :=
      List.mem_filterMap.mpr ⟨r, hr, by rw [dateValue_disputedAt, hd]; rfl⟩
    have hmemf' : bucketOf freq d ∈ (dateKeyed df "disputedAt" freq).map Prod.fst :=
      List.mem_map_of_mem Prod.fst hmem'
    have h1 : bmin ≤ bucketOf freq d := int_min?_bound hmin _ hmemf'
    have h2 : bucketOf freq d ≤ bmax := int_max?_bound hmax _ hmemf'
    rw [hdf, List.map_map]
    refine List.mem_map.mpr
      ⟨(bucketOf freq d - bmin).toNat, List.mem_range.mpr (by omega), ?_⟩
    show bmin + (((bucketOf freq d - bmin).toNat : Nat) : Int) = bucketOf freq d
    omega
  · intro row hrow
    rw [hdf] at hrow
    obtain ⟨i, hi, hieq⟩ := List.mem_map.mp hrow
    have hcount : row.dispute_count
        = ((dateKeyed df "disputedAt" freq).filter
            (fun p => p.1 == bmin + (i : Int))).length := by
      rw [← hieq]
      simp [dateRowFor]
    have hbucket : row.bucket = bmin + (i : Int) := by
      rw [← hieq]
      rfl
    rw [hcount, hbucket, dateKeyed_filter_count]

/-- Witness for C4: records on 2024-01-01 and 2024-01-03 (one undated record
included) at day granularity. -/
theorem byTime_calendar_complete_witness :
    (∃ r ∈ [sampleDay0, sampleDay2, sampleBase], r.disputedAt.isSome)
    ∧ (calculate_by_date [sampleDay0, sampleDay2, sampleBase] "disputedAt" Freq.D ≠ []
      ∧ (∃ b0 : Int,
          (calculate_by_date [sampleDay0, sampleDay2, sampleBase] "disputedAt" Freq.D).map
              DateRow.bucket
            = (List.range (calculate_by_date [sampleDay0, sampleDay2, sampleBase]
                "disputedAt" Freq.D).length).map (fun i : Nat => b0 + (i : Int)))
      ∧ (∀ r ∈ [sampleDay0, sampleDay2, sampleBase], ∀ d : Int, r.disputedAt = some d →
          bucketOf Freq.D d ∈ (calculate_by_date [sampleDay0, sampleDay2, sampleBase]
            "disputedAt" Freq.D).map DateRow.bucket)
      ∧ (∀ row ∈ calculate_by_date [sampleDay0, sampleDay2, sampleBase] "disputedAt" Freq.D,
          row.dispute_count = ([sampleDay0, sampleDay2, sampleBase].filter
            (fun r => r.disputedAt.map (bucketOf Freq.D) == some row.bucket)).length)) :=
  ⟨⟨sampleDay0, by decide⟩,
    byTime_calendar_complete [sampleDay0, sampleDay2, sampleBase] Freq.D
      ⟨sampleDay0, by decide⟩⟩

/-! ### Category aggregator: rounding and reconciliation -/

lemma roundHalfEven_intCast (n : Int) : roundHalfEven (n : ℚ) = n := by
  unfold roundHalfEven
  rw [Int.floor_intCast]
  norm_num

lemma round2_cent (n : Int) : round2 ((n : ℚ) / 100) = (n : ℚ) / 100 := by
  unfold round2
  have h : ((n : ℚ) / 100) * 100 = (n : ℚ) := by field_simp
  rw [h, roundHalfEven_intCast]

lemma sum_cents (xs : List ℚ) (h : ∀ x ∈ xs, ∃ n : Int, x = (n : ℚ) / 100) :
    ∃ m : Int, xs.sum = (m : ℚ) / 100 := by
  induction xs with
  | nil => exact ⟨0, by simp⟩
  | cons x t ih =>
    obtain ⟨n, hn⟩ := h x (List.mem_cons_self x t)
    obtain ⟨m, hm⟩ := ih (fun y hy => h y (List.mem_cons_of_mem x hy))
    refine ⟨n + m, ?_⟩
    rw [List.sum_cons, hn, hm]
    push_cast
    ring

lemma catValue_eq_none_of_not_mem (r : Record) (c : String) (h : c ∉ dfColumns) :
    catValue r c = none := by
  have h1 : c ≠ "customerName" := fun he => h (he ▸ (by decide : "customerName" ∈ dfColumns))
  have h2 : c ≠ "siteName" := fun he => h (he ▸ (by decide : "siteName" ∈ dfColumns))
  have h3 : c ≠ "item" := fun he => h (he ▸ (by decide : "item" ∈ dfColumns))
  have h4 : c ≠ "discrepancy_type" :=
    fun he => h (he ▸ (by decide : "discrepancy_type" ∈ dfColumns))
  have h5 : c ≠ "discrepancy_status" :=
    fun he => h (he ▸ (by decide : "discrepancy_status" ∈ dfColumns))
  simp [catValue, h1, h2, h3, h4, h5]

lemma categoryKeyed_map_fst (df : List Record) (c : String) :
    (categoryKeyed df c).map Prod.fst = df.filterMap (fun r => catValue r c) := by
  induction df with
  | nil => rfl
  | cons r t ih =>
    simp only [categoryKeyed, List.filterMap_cons] at ih ⊢
    cases h : catValue r c with
    | none => simpa [h] using ih
    | some k => simpa [h] using ih

lemma categoryKeyed_snd_mem (df : List Record) (c : String) {p : String × Record}
    (hp : p ∈ categoryKeyed df c) : p.2 ∈ df := by
  obtain ⟨r, hr, hrp⟩ := List.mem_filterMap.mp hp
  cases hcv : catValue r c with
  | none => rw [hcv] at hrp; simp at hrp
  | some k =>
    rw [hcv] at hrp
    simp only [Option.map_some'] at hrp
    have he := Option.some.inj hrp
    rw [← he]
    exact hr

lemma categoryKeyed_map_snd_of_all_some (df : List Record) (c : String)
    (h : ∀ r ∈ df, (catValue r c).isSome) :
    (categoryKeyed df c).map (Record.discrepancy_value ∘ Prod.snd)
      = df.map Record.discrepancy_value := by
  induction df with
  | nil => rfl
  | cons r t ih =>
    have hr := h r (List.mem_cons_self r t)
    obtain ⟨k, hk⟩ := Option.isSome_iff_exists.mp hr
    have ht : ∀ x ∈ t, (catValue x c).isSome :=
      fun x hx => h x (List.mem_cons_of_mem r hx)
    simp only [categoryKeyed, List.filterMap_cons, hk, Option.map_some', List.map_cons]
    rw [show (Record.discrepancy_value ∘ Prod.snd) (k, r) = r.discrepancy_value from rfl]
    have := ih ht
    simp only [categoryKeyed] at this
    rw [this]

/-- C3 counterexample: for the single record with a non-null category and
`discrepancy_value = 1/3`, the per-row `total_discrepancy` values (rounded
to 2 decimals by the code) sum to `0.33`, which differs from
`summaryMetrics.total_discrepancy_value = 1/3`. -/
theorem byCategory_reconcile_counterexample :
    (∀ r ∈ [sampleThird], (catValue r "customerName").isSome)
    ∧ ((calculate_by_category [sampleThird] "customerName").map
          CategoryRow.total_discrepancy).sum
        ≠ (calculate_summary_metrics [sampleThird]).total_discrepancy_value := by
  refine ⟨by decide, ?_⟩
  have hfloor : Int.floor ((1:ℚ)/3 * 100) = 33 := by
    rw [show ((1:ℚ)/3 * 100) = 100/3 by norm_num]
    rw [Int.floor_eq_iff]
    constructor <;> norm_num
  have hround : round2 ((1:ℚ)/3) = 33/100 := by
    unfold round2 roundHalfEven
    rw [hfloor]
    norm_num
  have h1 : calculate_by_category [sampleThird] "customerName"
      = [categoryRowFor (categoryKeyed [sampleThird] "customerName") "X"] := by
    unfold calculate_by_category
    rw [if_pos (by decide)]
    rfl
  have h2 : (categoryRowFor (categoryKeyed [sampleThird] "customerName") "X").total_discrepancy
      = round2 ((1:ℚ)/3 + 0) := rfl
  rw [h1]
  simp only [List.map_cons, List.map_nil, List.sum_cons, List.sum_nil]
  rw [h2]
  have h3 : ((1:ℚ)/3 + 0) = 1/3 := by norm_num
  rw [h3, hround]
  have h4 : (calculate_summary_metrics [sampleThird]).total_discrepancy_value
      = (1:ℚ)/3 + 0 := rfl
  rw [h4, h3]
  norm_num

/-- C3 (amended): under the claim's premise that every record has a non-null
value of the chosen category field, the `byCategory` row count is at most
the number of distinct category values, and the per-row `total_discrepancy`
values sum to `summaryMetrics.total_discrepancy_value` provided every
record's `discrepancy_value` is an exact multiple of 0.01 -- the code
rounds each group total to 2 decimal places, so on non-cent-representable
data the reconciliation fails (see the counterexample). -/
theorem byCategory_reconciles (df : List Record) (c : String)
    (hnn : ∀ r ∈ df, (catValue r c).isSome)
    (hcent : ∀ r ∈ df, ∃ n : Int, r.discrepancy_value = (n : ℚ) / 100) :
    (calculate_by_category df c).length
        ≤ ((df.filterMap (fun r => catValue r c)).dedup).length
    ∧ ((calculate_by_category df c).map CategoryRow.total_discrepancy).sum
        = (calculate_summary_metrics df).total_discrepancy_value := by
  by_cases hc : c ∈ dfColumns
  · have hby : calculate_by_category df c
        = List.insertionSort (fun a b => b.total_discrepancy ≤ a.total_discrepancy)
            ((((categoryKeyed df c).map Prod.fst).dedup).map
              (categoryRowFor (categoryKeyed df c))) := by
      unfold calculate_by_category
      rw [if_pos hc]
    constructor
    · rw [hby, List.length_insertionSort, List.length_map, categoryKeyed_map_fst]
    · rw [hby]
      have hperm :
          ((List.insertionSort (fun a b => b.total_discrepancy ≤ a.total_discrepancy)
              ((((categoryKeyed df c).map Prod.fst).dedup).map
                (categoryRowFor (categoryKeyed df c)))).map CategoryRow.total_discrepancy).Perm
            (((((categoryKeyed df c).map Prod.fst).dedup).map
                (categoryRowFor (categoryKeyed df c))).map CategoryRow.total_discrepancy) :=
        (List.perm_insertionSort _ _).map _
      rw [hperm.sum_eq, List.map_map]
      have hfun : ∀ k ∈ ((categoryKeyed df c).map Prod.fst).dedup,
          (CategoryRow.total_discrepancy ∘ categoryRowFor (categoryKeyed df c)) k
            = (((categoryKeyed df c).filter (fun p => p.1 == k)).map
                (Record.discrepancy_value ∘ Prod.snd)).sum := by
        intro k _
        show round2 (seriesSum
            ((((categoryKeyed df c).filter (fun p => p.1 == k)).map Prod.snd).map
              Record.discrepancy_value)) = _
        rw [List.map_map]
        unfold seriesSum
        have hvals : ∀ x ∈ ((categoryKeyed df c).filter (fun p => p.1 == k)).map
            (Record.discrepancy_value ∘ Prod.snd), ∃ n : Int, x = (n : ℚ) / 100 := by
          intro x hx
          obtain ⟨p, hp, hpx⟩ := List.mem_map.mp hx
          have hpdf : p.2 ∈ df :=
            categoryKeyed_snd_mem df c (List.mem_filter.mp hp).1
          obtain ⟨n, hn⟩ := hcent p.2 hpdf
          exact ⟨n, by rw [← hpx]; exact hn⟩
        obtain ⟨m, hm⟩ := sum_cents _ hvals
        rw [hm, round2_cent]
      rw [List.map_congr_left hfun]
      rw [sum_over_groups Prod.fst (Record.discrepancy_value ∘ Prod.snd)
            (((categoryKeyed df c).map Prod.fst).dedup) (categoryKeyed df c)
            (List.nodup_dedup _)
            (fun p hp => List.mem_dedup.mpr (List.mem_map_of_mem Prod.fst hp))]
      rw [categoryKeyed_map_snd_of_all_some df c hnn]
      rfl
  · have hdf : df = [] := by
      cases df with
      | nil => rfl
      | cons r t =>
        have h1 := hnn r (List.mem_cons_self r t)
        rw [catValue_eq_none_of_not_mem r c hc] at h1
        simp at h1
    subst hdf
    refine ⟨?_, ?_⟩
    · simp [calculate_by_category, hc]
    · simp [calculate_by_category, hc, calculate_summary_metrics, seriesSum]

/-- Witness for C3 (amended), at three cent-valued records in two
categories. -/
theorem byCategory_reconciles_witness :
    (∀ r ∈ [sampleCentA1, sampleCentA2, sampleCentB],
        (catValue r "customerName").isSome)
    ∧ (∀ r ∈ [sampleCentA1, sampleCentA2, sampleCentB],
        ∃ n : Int, r.discrepancy_value = (n : ℚ) / 100)
    ∧ ((calculate_by_category [sampleCentA1, sampleCentA2, sampleCentB]
            "customerName").length
          ≤ (([sampleCentA1, sampleCentA2, sampleCentB].filterMap
              (fun r => catValue r "customerName")).dedup).length
      ∧ ((calculate_by_category [sampleCentA1, sampleCentA2, sampleCentB]
            "customerName").map CategoryRow.total_discrepancy).sum
          = (calculate_summary_metrics
              [sampleCentA1, sampleCentA2, sampleCentB]).total_discrepancy_value) := by
  have hs : ∀ r ∈ [sampleCentA1, sampleCentA2, sampleCentB],
      (catValue r "customerName").isSome := by decide
  have hc : ∀ r ∈ [sampleCentA1, sampleCentA2, sampleCentB],
      ∃ n : Int, r.discrepancy_value = (n : ℚ) / 100 := by
    intro r hr
    simp only [List.mem_cons, List.not_mem_nil, or_false] at hr
    rcases hr with h | h | h
    · exact ⟨1050, by rw [h]; norm_num [sampleCentA1, sampleBase]⟩
    · exact ⟨-25, by rw [h]; norm_num [sampleCentA2, sampleBase]⟩
    · exact ⟨200, by rw [h]; norm_num [sampleCentB, sampleBase]⟩
  exact ⟨hs, hc, byCategory_reconciles _ _ hs hc⟩

/-! ### Top-N selector -/

lemma nlargestSorted_perm (df : List Record) (key : Record → ℚ) :
    ((nlargestSorted df key).map Prod.snd).Perm df := by
  have h1 : (nlargestSorted df key).Perm df.enum := List.perm_insertionSort _ _
  have h2 := h1.map Prod.snd
  have h3 : (df.enum.map Prod.snd).Perm df := by
    rw [show df.enum = df.enumFrom 0 from rfl, List.enumFrom_map_snd]
  exact h2.trans h3

lemma nlargestSorted_sorted (df : List Record) (key : Record → ℚ) :
    (nlargestSorted df key).Pairwise (nlargestLE key) :=
  List.sorted_insertionSort _ _

lemma nlargestSorted_nodup_fst (df : List Record) (key : Record → ℚ) :
    ((nlargestSorted df key).map Prod.fst).Nodup := by
  have h1 : (nlargestSorted df key).Perm df.enum := List.perm_insertionSort _ _
  have h3 : (df.enum.map Prod.fst).Nodup := by
    rw [show df.enum = df.enumFrom 0 from rfl, List.enumFrom_map_fst]
    exact List.nodup_range' _ _
  exact ((h1.map Prod.fst).nodup_iff).mpr h3

lemma nlargestSorted_stable (df : List Record) (key : Record → ℚ) :
    (nlargestSorted df key).Pairwise
      (fun p q => key p.2 = key q.2 → p.1 < q.1) := by
  have hs := nlargestSorted_sorted df key
  have hn : (nlargestSorted df key).Pairwise (fun p q => p.1 ≠ q.1) :=
    List.pairwise_map.mp (nlargestSorted_nodup_fst df key)
  refine (hs.and hn).imp ?_
  rintro p q ⟨hle, hne⟩ heq
  rcases hle with hlt | ⟨_, hile⟩
  · rw [heq] at hlt
    exact absurd hlt (lt_irrefl _)
  · exact lt_of_le_of_ne hile hne

lemma nlargestSorted_head_max (df : List Record) (key : Record → ℚ)
    {p0 : Nat × Record} {rest : List (Nat × Record)}
    (h : nlargestSorted df key = p0 :: rest) :
    ∀ r ∈ df, key r ≤ key p0.2 := by
  intro r hr
  have hperm := nlargestSorted_perm df key
  have hrmem : r ∈ (nlargestSorted df key).map Prod.snd := hperm.mem_iff.mpr hr
  rw [h, List.map_cons] at hrmem
  rcases List.mem_cons.mp hrmem with he | hm
  · rw [he]
  · obtain ⟨q, hq, hqr⟩ := List.mem_map.mp hm
    have hs := nlargestSorted_sorted df key
    rw [h] at hs
    have hrel : nlargestLE key p0 q := List.rel_of_pairwise_cons hs hq
    rcases hrel with hlt | ⟨heq, _⟩
    · rw [← hqr]
      exact hlt.le
    · rw [← hqr, ← heq]

/-- C7: the Top-N core returns at most `n` records; the underlying sorted
sequence is a permutation of the record set, pairwise descending in the
chosen field, of which the result is the length-`n` prefix (hence a
subsequence of the record set sorted descending); for a nonempty record set
and `n ≥ 1` the first returned record attains the field's maximum; and ties
are broken deterministically by ascending original position. -/
theorem topn_selection_spec (df : List Record) (n : Int) (c : String)
    (hn : 1 ≤ n) (hdf : df ≠ []) :
    (nlargestRecords df n (sortKeyFn c)).length ≤ n.toNat
    ∧ ((nlargestSorted df (sortKeyFn c)).map Prod.snd).Perm df
    ∧ ((nlargestSorted df (sortKeyFn c)).map Prod.snd).Pairwise
        (fun a b => sortKeyFn c b ≤ sortKeyFn c a)
    ∧ nlargestRecords df n (sortKeyFn c)
        = ((nlargestSorted df (sortKeyFn c)).map Prod.snd).take n.toNat
    ∧ (∃ r0, (nlargestRecords df n (sortKeyFn c)).head? = some r0
        ∧ ∀ r ∈ df, sortKeyFn c r ≤ sortKeyFn c r0)
    ∧ ((nlargestSorted df (sortKeyFn c)).take n.toNat).Pairwise
        (fun p q => sortKeyFn c p.2 = sortKeyFn c q.2 → p.1 < q.1) := by
  refine ⟨?_, nlargestSorted_perm df (sortKeyFn c), ?_, ?_, ?_, ?_⟩
  · unfold nlargestRecords
    rw [List.length_map, List.length_take]
    exact min_le_left _ _
  · refine List.pairwise_map.mpr ((nlargestSorted_sorted df (sortKeyFn c)).imp ?_)
    rintro p q (hlt | ⟨heq, _⟩)
    · exact hlt.le
    · exact le_of_eq heq.symm
  · unfold nlargestRecords
    rw [List.map_take]
  · cases hsorted : nlargestSorted df (sortKeyFn c) with
    | nil =>
      exfalso
      have hperm := nlargestSorted_perm df (sortKeyFn c)
      rw [hsorted] at hperm
      exact hdf (hperm.symm.eq_nil)
    | cons p0 rest =>
      have hpos : 1 ≤ n.toNat := by omega
      obtain ⟨k, hk⟩ : ∃ k, n.toNat = k + 1 := ⟨n.toNat - 1, by omega⟩
      refine ⟨p0.2, ?_, nlargestSorted_head_max df (sortKeyFn c) hsorted⟩
      unfold nlargestRecords
      rw [hsorted, hk, List.take_succ_cons, List.map_cons]
      rfl
  · exact (nlargestSorted_stable df (sortKeyFn c)).sublist (List.take_sublist _ _)

/-- Witness for C7 at three concrete records with a tie on the default sort
field and `n = 2`. -/
theorem topn_selection_spec_witness :
    (1 ≤ (2 : Int)) ∧ ([sampleTie1, sampleTie2, sampleTie3] ≠ [])
    ∧ ((nlargestRecords [sampleTie1, sampleTie2, sampleTie3] 2
          (sortKeyFn "discrepancy_value")).length ≤ (2 : Int).toNat
      ∧ ((nlargestSorted [sampleTie1, sampleTie2, sampleTie3]
          (sortKeyFn "discrepancy_value")).map Prod.snd).Perm
            [sampleTie1, sampleTie2, sampleTie3]
      ∧ ((nlargestSorted [sampleTie1, sampleTie2, sampleTie3]
          (sortKeyFn "discrepancy_value")).map Prod.snd).Pairwise
            (fun a b => sortKeyFn "discrepancy_value" b
              ≤ sortKeyFn "discrepancy_value" a)
      ∧ nlargestRecords [sampleTie1, sampleTie2, sampleTie3] 2
            (sortKeyFn "discrepancy_value")
          = ((nlargestSorted [sampleTie1, sampleTie2, sampleTie3]
              (sortKeyFn "discrepancy_value")).map Prod.snd).take (2 : Int).toNat
      ∧ (∃ r0, (nlargestRecords [sampleTie1, sampleTie2, sampleTie3] 2
            (sortKeyFn "discrepancy_value")).head? = some r0
          ∧ ∀ r ∈ [sampleTie1, sampleTie2, sampleTie3],
              sortKeyFn "discrepancy_value" r ≤ sortKeyFn "discrepancy_value" r0)
      ∧ ((nlargestSorted [sampleTie1, sampleTie2, sampleTie3]
          (sortKeyFn "discrepancy_value")).take (2 : Int).toNat).Pairwise
            (fun p q => sortKeyFn "discrepancy_value" p.2
              = sortKeyFn "discrepancy_value" q.2 → p.1 < q.1)) :=
  ⟨by decide, by decide,
    topn_selection_spec [sampleTie1, sampleTie2, sampleTie3] 2 "discrepancy_value"
      (by decide) (by decide)⟩

/-- C6 counterexample: two single-record sets that differ only in
`expected_rate` produce identical Top-N output, so the original
`expected_rate` column is not preserved -- the code projects onto a fixed
eight-column subset that drops `expected_rate`, `billed_rate` and
`discrepancy_status`. -/
theorem topn_columns_counterexample :
    sampleRateA.expected_rate ≠ sampleRateB.expected_rate
    ∧ calculate_top_disputes [sampleRateA] 1 "discrepancy_value"
        = calculate_top_disputes [sampleRateB] 1 "discrepancy_value" := by
  constructor
  · show (3 : ℚ) ≠ 4
    norm_num
  · rfl

/-- C6 (amended): Top-N returns up to `n` records sorted descending by the
chosen field, falling back to the default field `discrepancy_value` when
the requested sort column is absent rather than failing; the returned rows
carry the fixed eight output columns (po_number, customerName, siteName,
item, discrepancy_value, gallons, disputedAt, discrepancy_type), not all
original columns. -/
theorem topn_fallback_projection (df : List Record) (n : Int) (c : String)
    (h : c ∉ dfColumns) :
    calculate_top_disputes df n c = calculate_top_disputes df n "discrepancy_value"
    ∧ (calculate_top_disputes df n c).length ≤ n.toNat
    ∧ calculate_top_disputes df n c
        = (nlargestRecords df n (sortKeyFn "discrepancy_value")).map topColumns
    ∧ (calculate_top_disputes df n c).Pairwise
        (fun a b => b.discrepancy_value ≤ a.discrepancy_value) := by
  have hfall : calculate_top_disputes df n c
      = (nlargestRecords df n (sortKeyFn "discrepancy_value")).map topColumns := by
    unfold calculate_top_disputes
    rw [if_neg h]
  have hdefault : calculate_top_disputes df n "discrepancy_value"
      = (nlargestRecords df n (sortKeyFn "discrepancy_value")).map topColumns := by
    unfold calculate_top_disputes
    rw [if_pos (by decide : "discrepancy_value" ∈ dfColumns)]
  refine ⟨hfall.trans hdefault.symm, ?_, hfall, ?_⟩
  · rw [hfall, List.length_map]
    unfold nlargestRecords
    rw [List.length_map, List.length_take]
    exact min_le_left _ _
  · rw [hfall]
    unfold nlargestRecords
    refine List.pairwise_map.mpr (List.pairwise_map.mpr ?_)
    have hsorted := (nlargestSorted_sorted df (sortKeyFn "discrepancy_value")).sublist
      (List.take_sublist n.toNat _)
    refine hsorted.imp ?_
    rintro p q (hlt | ⟨heq, _⟩)
    · show (topColumns q.2).discrepancy_value ≤ (topColumns p.2).discrepancy_value
      show sortKeyFn "discrepancy_value" q.2 ≤ sortKeyFn "discrepancy_value" p.2
      exact hlt.le
    · show (topColumns q.2).discrepancy_value ≤ (topColumns p.2).discrepancy_value
      show sortKeyFn "discrepancy_value" q.2 ≤ sortKeyFn "discrepancy_value" p.2
      exact le_of_eq heq.symm

/-- Witness for C6 (amended) at the concrete absent sort column `"nope"`. -/
theorem topn_fallback_projection_witness :
    "nope" ∉ dfColumns
    ∧ (calculate_top_disputes [sampleTie1] 1 "nope"
          = calculate_top_disputes [sampleTie1] 1 "discrepancy_value"
      ∧ (calculate_top_disputes [sampleTie1] 1 "nope").length ≤ (1 : Int).toNat
      ∧ calculate_top_disputes [sampleTie1] 1 "nope"
          = (nlargestRecords [sampleTie1] 1 (sortKeyFn "discrepancy_value")).map topColumns
      ∧ (calculate_top_disputes [sampleTie1] 1 "nope").Pairwise
          (fun a b => b.discrepancy_value ≤ a.discrepancy_value)) :=
  ⟨by decide, topn_fallback_projection [sampleTie1] 1 "nope" (by decide)⟩

/-- C8 counterexample: at the concrete negative count `n = -1` the Top-N
selector returns the empty table -- pandas `nlargest` short-circuits
`n ≤ 0` to an empty frame -- so the code does not raise on negative `N`. -/
theorem topn_negative_counterexample :
    calculate_top_disputes [sampleTie1] (-1) "discrepancy_value" = [] := rfl

/-- C8 (amended): for every record set and sort column, a negative count
yields the empty result rather than an error; for the documented data
conditions the aggregation core is total, returning the defined empty
results proved in the missing-field and empty-set theorems. -/
theorem topn_negative_empty (df : List Record) (c : String) (n : Int) (hn : n < 0) :
    calculate_top_disputes df n c = [] := by
  simp [calculate_top_disputes, nlargestRecords, Int.toNat_of_nonpos hn.le]

/-- Witness for C8 (amended) at the concrete count `n = -2`. -/
theorem topn_negative_empty_witness :
    ((-2 : Int) < 0) ∧ calculate_top_disputes [] (-2) "discrepancy_value" = [] :=
  ⟨by decide, topn_negative_empty [] "discrepancy_value" (-2) (by decide)⟩
